import Mathlib

/-!
Shallow embedding of py-oscilloscope (src/oscilloscope.py, src/plothelpers.py).

Samples are modelled as rationals.  A display buffer is a list of rows,
oldest row first; a row holds the per-channel sample values.  The numpy
operations used by the source (`np.roll`, slice assignment into the trailing
rows, `np.convolve` in `same` mode) are modelled on lists, with the
broadcast failure of a shape-mismatched assignment modelled as an
`Except.error`.
-/

/-- `np.roll(l, -shift, axis=0)`: cyclic left rotation by `shift % len(l)`. -/
def npRollNeg {α : Type} (l : List α) (shift : Nat) : List α :=
  l.drop (shift % l.length) ++ l.take (shift % l.length)

/-- `np.roll(l, shift)` for a nonnegative `shift`: cyclic right rotation. -/
def npRollPos {α : Type} (l : List α) (shift : Nat) : List α :=
  l.drop (l.length - shift % l.length) ++ l.take (l.length - shift % l.length)

/-- Index where the Python slice `buf[-shift:]` starts (`shift = len(block)`).
Python's `-0` is `0`, so for an empty block the slice is the whole buffer. -/
def tailStart {α : Type} (buf block : List α) : Nat :=
  if block.length = 0 then 0 else buf.length - min block.length buf.length

/-- `buf[-shift:, :] = block` (numpy slice assignment with `shift = len(block)`).
The assignment succeeds exactly when the number of target rows equals
`len(block)`, otherwise numpy raises a broadcast-shape `ValueError`. -/
def writeTail {α : Type} (buf block : List α) : Except String (List α) :=
  if buf.length - tailStart buf block = block.length then
    .ok (buf.take (tailStart buf block) ++ block)
  else .error "could not broadcast input array"

/-- One push of a block into the display buffer, lines 128-131 of
`oscilloscope.py`: roll the buffer up by `len(data)` rows, then write the
block into the trailing rows. -/
def pushE {α : Type} (buf block : List α) : Except String (List α) :=
  writeTail (npRollNeg buf block.length) block

/-- The effect of a successful push: drop the oldest rows, append the block. -/
def pushPure {α : Type} (buf block : List α) : List α :=
  buf.drop block.length ++ block

/-- Folding `pushPure` over a queue of blocks, oldest block first. -/
def drainPure {α : Type} (buf : List α) (blocks : List (List α)) : List α :=
  blocks.foldl pushPure buf

/-- The drain loop of `update_plot` (lines 123-131): dequeue blocks one at a
time and push each into the buffer.  Returns the remaining queue, the buffer,
and the raised exception if any; on a failing push the block has already been
dequeued and the buffer already rolled when the error is raised. -/
def runDrain {α : Type} : List (List α) → List α → List (List α) × List α × Option String
  | [], buf => ([], buf, none)
  | b :: rest, buf =>
    let rolled := npRollNeg buf b.length
    match writeTail rolled b with
    | .error e => (rest, rolled, some e)
    | .ok buf2 => runDrain rest buf2

/-- Total number of rows in a list of blocks. -/
def totalLen {α : Type} (blocks : List (List α)) : Nat :=
  (blocks.map List.length).sum

/-- `np.convolve(a, v)` (full mode): entry `k` is the sum of
`a[k-j] * v[j]` over the indices where both factors exist. -/
def convFull (a v : List ℚ) : List ℚ :=
  (List.range (a.length + v.length - 1)).map fun k =>
    (List.range v.length).foldl
      (fun acc j => if j ≤ k then acc + v.getD j 0 * a.getD (k - j) 0 else acc) 0

/-- `np.convolve(a, v, "same")`: the centered `max(len(a), len(v))` entries of
the full convolution, starting at offset `(min(len(a), len(v)) - 1) // 2`. -/
def convSame (a v : List ℚ) : List ℚ :=
  ((convFull a v).drop ((min a.length v.length - 1) / 2)).take (max a.length v.length)

/-- Column `c` of a row-major buffer. -/
def column (c : Nat) (buf : List (List ℚ)) : List ℚ :=
  buf.map (fun row => row.getD c 0)

/-- The series assigned to a line in `update_plot` (lines 134-144): the raw
column when `avg <= 1`, otherwise the moving average
`np.roll(np.convolve(col, np.ones(avg), "same") / avg, avg)`. -/
def displaySeries (col : List ℚ) (avg : Nat) : List ℚ :=
  if 1 < avg then
    npRollPos ((convSame col (List.replicate avg 1)).map (fun x => x / (avg : ℚ))) avg
  else col

/-- Class attribute `max_window = 65536` of `Oscilloscope`. -/
def max_window : Nat := 65536

/-- Class attribute `min_window = 16` of `Oscilloscope`. -/
def min_window : Nat := 16

/-- Class attribute `max_yzoom = 8.0` of `Oscilloscope`. -/
def max_yzoom : ℚ := 8

/-- Class attribute `min_yzoom = 1.0` of `Oscilloscope`. -/
def min_yzoom : ℚ := 1

/-- The mutable state of an `Oscilloscope` instance, together with the parts
of the matplotlib objects the code reads back or mutates: the per-line
y-data, the status text (modelled as its interpolated values, `none` being
the initial placeholder), and the axis limits. -/
structure OscState where
  q : List (List (List ℚ))
  plotdata : List (List ℚ)
  nch : Nat
  paused : Bool
  avg : Nat
  window : ℚ
  yzoom : ℚ
  lines : List (List ℚ)
  status : Option (Nat × ℚ × ℚ × Nat)
  ax_xlim : ℚ × ℚ
  ax_ylim : ℚ × ℚ

/-- `set_window` (lines 46-53): when a value is given, clamp it into
`[min_window, max_window]`; always re-apply `ax.set_xlim([-window, 0])`. -/
def set_window (s : OscState) (w : Option ℚ) : OscState :=
  let s1 := match w with
    | some wv => { s with window := max (min wv (max_window : ℚ)) (min_window : ℚ) }
    | none => s
  { s1 with ax_xlim := (-s1.window, 0) }

/-- `set_yzoom` (lines 55-63): when a value is given, clamp it into
`[min_yzoom, max_yzoom]`; always re-apply `ax.set_ylim([-1/yzoom, 1/yzoom])`. -/
def set_yzoom (s : OscState) (y : Option ℚ) : OscState :=
  let s1 := match y with
    | some yv => { s with yzoom := max (min yv max_yzoom) min_yzoom }
    | none => s
  { s1 with ax_ylim := (-(1 / s1.yzoom), 1 / s1.yzoom) }

/-- The y-data of the lines created by `setup_plot`:
`ax.plot(xvals, self.plotdata)` makes one line per column of `plotdata`. -/
def setup_plot_lines (plotdata : List (List ℚ)) (nch : Nat) : List (List ℚ) :=
  (List.range nch).map (fun c => column c plotdata)

/-- `__init__` (lines 23-44): empty queue, all-zero `plotdata` of
`max_window` rows and `stream.channels` columns, `paused = False`,
`avg = 1`, then `self.window = window; self.set_window()` (note: called with
no argument, so the configured window is not clamped) and
`self.yzoom = 1.0; self.set_yzoom()`. -/
def init (window : ℚ) (nch : Nat) : OscState :=
  let plotdata := List.replicate max_window (List.replicate nch (0 : ℚ))
  let s0 : OscState :=
    { q := []
      plotdata := plotdata
      nch := nch
      paused := false
      avg := 1
      window := window
      yzoom := 1
      lines := setup_plot_lines plotdata nch
      status := none
      ax_xlim := (0, 0)      -- overwritten by `set_window()` below
      ax_ylim := (-1, 1) }   -- `ax.set_ylim([-1, 1])` in `setup_plot`
  set_yzoom (set_window s0 none) none

/-- `onkeypress` (lines 160-188): a chain of independent `if` tests on the
key string. -/
def onkeypress (s : OscState) (key : String) : OscState :=
  let s := if key = "p" then { s with paused := !s.paused } else s
  let s := if key = "alt+-" then set_yzoom s (some (s.yzoom / 2)) else s
  let s := if key = "alt++" then set_yzoom s (some (s.yzoom * 2)) else s
  let s := if key = "-" then set_window s (some (s.window * 2)) else s
  let s := if key = "+" then set_window s (some (s.window / 2)) else s
  if key = "a" then
    { s with avg := if s.avg = 1 then 3 else if s.avg = 3 then 5 else 1 }
  else s

/-- `update_plot` (lines 119-150): drain the queue into `plotdata`; when an
exception is raised by a push it propagates out of the callback (second
component).  When not paused, set each line's y-data from the corresponding
`plotdata` column and update the status text with the frame counter, elapsed
time, window and averaging span. -/
def update_plot (s : OscState) (frame : Nat) (elapsed : ℚ) : OscState × Option String :=
  let r := runDrain s.q s.plotdata
  let s1 := { s with q := r.1, plotdata := r.2.1 }
  match r.2.2 with
  | some e => (s1, some e)
  | none =>
    if s1.paused then (s1, none)
    else
      ({ s1 with
          lines := (List.range s1.nch).map (fun c => displaySeries (column c s1.plotdata) s1.avg)
          status := some (frame, elapsed, s1.window, s1.avg) }, none)

/-- `put_data` (lines 65-68): the producer callback appends one block to the
queue. -/
def put_data (s : OscState) (block : List (List ℚ)) : OscState :=
  { s with q := s.q ++ [block] }

/-- States of the oscilloscope reachable from construction by any
interleaving of key presses, animation ticks and producer callbacks. -/
inductive Reachable : OscState → Prop
  | init_state (w : ℚ) (nch : Nat) : Reachable (init w nch)
  | key (s : OscState) (k : String) : Reachable s → Reachable (onkeypress s k)
  | tick (s : OscState) (f : Nat) (t : ℚ) : Reachable s → Reachable (update_plot s f t).1
  | put (s : OscState) (b : List (List ℚ)) : Reachable s → Reachable (put_data s b)

/-- `samples_time_conversion` from `plothelpers.py` (lines 45-64): choose the
factor from the timebase (raising `ValueError` on anything but `ms` or `s`)
and return the two conversion functions.  This version idealizes the Python
float arithmetic as exact rationals; `samples_time_conversion_fp` below keeps
the IEEE-754 binary64 rounding the program actually performs. -/
def samples_time_conversion (samplerate : ℚ) (timebase : String) :
    Except String ((ℚ → ℚ) × (ℚ → ℚ)) :=
  match (if timebase = "ms" then some (1000 : ℚ)
         else if timebase = "s" then some 1 else none) with
  | none => .error "timebase must be either ms or s"
  | some factor =>
      .ok (fun samples => samples * factor / samplerate,
           fun times => times * samplerate / factor)

/-- IEEE-754 binary64 round-to-nearest-even of an exact rational value, for
values in the normal range (no overflow or subnormal handling is needed for
the magnitudes arising here): the result is the nearest multiple of
`2 ^ (e - 52)` where `e = floor(log2 |x|)`, with ties going to the even
mantissa. -/
def fp64Round (x : ℚ) : ℚ :=
  if x = 0 then 0
  else
    let s : ℚ := if x < 0 then -1 else 1
    let ax := |x|
    let e := Int.log 2 ax
    let scaled := ax * 2 ^ ((52 : ℤ) - e)
    let n := ⌊scaled⌋
    let r := scaled - n
    let m := if r < 1/2 then n else if 1/2 < r then n + 1 else if n % 2 = 0 then n else n + 1
    s * m * 2 ^ (e - 52)

/-- A binary64 multiplication: the exact product, correctly rounded. -/
def fp64Mul (x y : ℚ) : ℚ := fp64Round (x * y)

/-- A binary64 division: the exact quotient, correctly rounded. -/
def fp64Div (x y : ℚ) : ℚ := fp64Round (x / y)

/-- `samples_time_conversion` under the program's float semantics: the same
code as above, but with each arithmetic operation (`samples * factor`, the
division by `samplerate`, `times * samplerate`, the division by `factor`)
rounded to binary64 as Python doubles are. -/
def samples_time_conversion_fp (samplerate : ℚ) (timebase : String) :
    Except String ((ℚ → ℚ) × (ℚ → ℚ)) :=
  match (if timebase = "ms" then some (1000 : ℚ)
         else if timebase = "s" then some 1 else none) with
  | none => .error "timebase must be either ms or s"
  | some factor =>
      .ok (fun samples => fp64Div (fp64Mul samples factor) samplerate,
           fun times => fp64Div (fp64Mul times samplerate) factor)

/-- The window value written by a `+` key press. -/
def wstep_plus (w : ℚ) : ℚ := max (min (w / 2) (max_window : ℚ)) (min_window : ℚ)

/-- The window value written by a `-` key press. -/
def wstep_minus (w : ℚ) : ℚ := max (min (w * 2) (max_window : ℚ)) (min_window : ℚ)

/-- The state invariant maintained by every reachable state: the buffer and
the rendered lines keep `max_window` rows, the axis limits track `window`
and `yzoom`, `yzoom` is clamped, and `avg` cycles in `{1, 3, 5}`. -/
def OscInv (s : OscState) : Prop :=
  s.plotdata.length = max_window ∧
  (∀ l ∈ s.lines, l.length = max_window) ∧
  s.ax_xlim = (-s.window, 0) ∧
  s.ax_ylim = (-(1 / s.yzoom), 1 / s.yzoom) ∧
  min_yzoom ≤ s.yzoom ∧ s.yzoom ≤ max_yzoom ∧
  (s.avg = 1 ∨ s.avg = 3 ∨ s.avg = 5)

/-- A paused state with one queued one-row block, used to instantiate the
paused-tick theorem. -/
def pausedExample : OscState :=
  { init 16 1 with paused := true, q := [[[1]]] }

/-- A freshly constructed scope whose queue holds an empty block followed by
a one-row block: total queued length 1, well below capacity. -/
def emptyBlockExample : OscState :=
  { init 1024 1 with q := [[], [[1]]] }

/-- C1 counterexample: the claim quantifies over all block sequences of
total length at most the capacity, but a tick on a queue starting with an
empty block raises on the push (Python's `buf[-0:]` is the whole buffer)
and leaves the second block in the queue — the tick does not leave the
queue empty. -/

lemma Int_log2_eq {r : ℚ} {e : ℤ} (h0 : 0 < r) (h1 : (2 : ℚ) ^ e ≤ r)
    (h2 : r < (2 : ℚ) ^ (e + 1)) : Int.log 2 r = e := by
  have ha : e ≤ Int.log 2 r := by
    calc e = Int.log 2 ((2 : ℚ) ^ e) := (Int.log_zpow (by norm_num) e).symm
    _ ≤ Int.log 2 r := Int.log_mono_right (zpow_pos (by norm_num) e) h1
  have hb : Int.log 2 r < e + 1 := by
    have hle : (2 : ℚ) ^ Int.log 2 r ≤ r := Int.zpow_log_le_self (by norm_num) h0
    have hlt : (2 : ℚ) ^ Int.log 2 r < (2 : ℚ) ^ (e + 1) := lt_of_le_of_lt hle h2
    exact (zpow_lt_zpow_iff_right₀ (by norm_num)).mp hlt
  omega

lemma fp64Round_eval (x : ℚ) (e m : ℤ) (hx : 0 < x)
    (hlog : Int.log 2 x = e)
    (hfloor : ⌊x * 2 ^ ((52 : ℤ) - e)⌋ = m)
    (hlt : x * 2 ^ ((52 : ℤ) - e) - m < 1/2) :
    fp64Round x = (m : ℚ) * 2 ^ (e - 52) := by
  unfold fp64Round
  simp only [if_neg hx.ne', if_neg (not_lt.mpr hx.le), abs_of_pos hx, hlog, hfloor]
  rw [if_pos hlt]
  ring

lemma npRollNeg_length {α : Type} (l : List α) (shift : Nat) :
    (npRollNeg l shift).length = l.length := by
  unfold npRollNeg
  rw [List.length_append, List.length_drop, List.length_take]
  rcases Nat.eq_zero_or_pos l.length with h | h
  · simp [h]
  · have := Nat.mod_lt shift h
    omega

lemma npRollNeg_zero {α : Type} (l : List α) : npRollNeg l 0 = l := by
  simp [npRollNeg]

lemma npRollPos_length {α : Type} (l : List α) (shift : Nat) :
    (npRollPos l shift).length = l.length := by
  unfold npRollPos
  rw [List.length_append, List.length_drop, List.length_take]
  omega

lemma tailStart_le {α : Type} (buf block : List α) : tailStart buf block ≤ buf.length := by
  unfold tailStart
  split <;> omega

lemma writeTail_nil {α : Type} (buf : List α) (h : buf ≠ []) :
    writeTail buf ([] : List α) = .error "could not broadcast input array" := by
  have hb : buf.length ≠ 0 := by simpa using h
  rw [writeTail, if_neg]
  simp [tailStart, hb]

lemma writeTail_ok_length {α : Type} {buf block out : List α}
    (hw : writeTail buf block = .ok out) : out.length = buf.length := by
  unfold writeTail at hw
  split_ifs at hw with hc
  · cases hw
    have := tailStart_le buf block
    rw [List.length_append, List.length_take]
    omega

lemma pushE_eq {α : Type} (buf block : List α) (h1 : block ≠ [])
    (h2 : block.length ≤ buf.length) :
    pushE buf block = .ok (pushPure buf block) := by
  have hb : block.length ≠ 0 := by simpa using h1
  have hn : 0 < buf.length := by
    have := Nat.pos_of_ne_zero hb
    omega
  have hlen : (npRollNeg buf block.length).length = buf.length := npRollNeg_length _ _
  have hstart : tailStart (npRollNeg buf block.length) block = buf.length - block.length := by
    unfold tailStart
    rw [if_neg hb, hlen, Nat.min_eq_left h2]
  unfold pushE writeTail
  rw [hstart, hlen, if_pos (by omega)]
  congr 1
  unfold pushPure
  congr 1
  rcases eq_or_lt_of_le h2 with heq | hlt
  · -- block fills the whole buffer
    rw [heq, Nat.sub_self, List.take_zero, List.drop_length]
  · -- block shorter than the buffer
    have hmod : block.length % buf.length = block.length := Nat.mod_eq_of_lt hlt
    unfold npRollNeg
    rw [hmod]
    exact List.take_left' (by simp)

lemma pushPure_length {α : Type} (buf block : List α) (h : block.length ≤ buf.length) :
    (pushPure buf block).length = buf.length := by
  unfold pushPure
  rw [List.length_append, List.length_drop]
  omega

lemma runDrain_eq {α : Type} :
    ∀ (blocks : List (List α)) (buf : List α),
      (∀ b ∈ blocks, b ≠ [] ∧ b.length ≤ buf.length) →
      runDrain blocks buf = ([], drainPure buf blocks, none)
  | [], buf, _ => by simp [runDrain, drainPure]
  | b :: rest, buf, h => by
    obtain ⟨hb, hbl⟩ := h b (by simp)
    have hpush : writeTail (npRollNeg buf b.length) b = .ok (pushPure buf b) :=
      pushE_eq buf b hb hbl
    have hrec : runDrain rest (pushPure buf b) = ([], drainPure (pushPure buf b) rest, none) := by
      apply runDrain_eq
      intro c hc
      obtain ⟨hc1, hc2⟩ := h c (by simp [hc])
      exact ⟨hc1, by rw [pushPure_length buf b hbl]; exact hc2⟩
    simp [runDrain, hpush, hrec, drainPure]

lemma runDrain_buf_length {α : Type} :
    ∀ (blocks : List (List α)) (buf : List α),
      (runDrain blocks buf).2.1.length = buf.length
  | [], buf => by simp [runDrain]
  | b :: rest, buf => by
    have hroll := npRollNeg_length buf b.length
    rcases hw : writeTail (npRollNeg buf b.length) b with e | buf2
    · simp [runDrain, hw, hroll]
    · have h2 : buf2.length = buf.length := by
        rw [writeTail_ok_length hw, hroll]
      rw [runDrain]
      simp only [hw]
      rw [runDrain_buf_length rest buf2, h2]

lemma mem_le_totalLen {α : Type} (b : List α) (blocks : List (List α)) :
    b ∈ blocks → b.length ≤ totalLen blocks := by
  intro hmem
  induction blocks with
  | nil => cases hmem
  | cons c rest ih =>
    rcases List.mem_cons.mp hmem with h | h
    · subst h; simp [totalLen]
    · have := ih h
      simp only [totalLen, List.map_cons, List.sum_cons] at this ⊢
      omega

lemma drainPure_replicate {α : Type} (z : α) :
    ∀ (blocks : List (List α)) (m : Nat) (acc : List α), totalLen blocks ≤ m →
      drainPure (List.replicate m z ++ acc) blocks
        = List.replicate (m - totalLen blocks) z ++ acc ++ blocks.flatten
  | [], m, acc, _ => by simp [drainPure, totalLen]
  | b :: rest, m, acc, h => by
    have hb : b.length + totalLen rest = totalLen (b :: rest) := by
      simp [totalLen]
    have hble : b.length ≤ m := by
      have := mem_le_totalLen b (b :: rest) (List.mem_cons_self b rest)
      omega
    have hstep : pushPure (List.replicate m z ++ acc) b
        = List.replicate (m - b.length) z ++ (acc ++ b) := by
      unfold pushPure
      rw [List.drop_append_of_le_length (by simpa using hble), List.drop_replicate,
        List.append_assoc]
    have hrest : totalLen rest ≤ m - b.length := by omega
    calc drainPure (List.replicate m z ++ acc) (b :: rest)
        = drainPure (pushPure (List.replicate m z ++ acc) b) rest := rfl
      _ = drainPure (List.replicate (m - b.length) z ++ (acc ++ b)) rest := by rw [hstep]
      _ = List.replicate (m - b.length - totalLen rest) z ++ (acc ++ b) ++ rest.flatten :=
          drainPure_replicate z rest (m - b.length) (acc ++ b) hrest
      _ = List.replicate (m - totalLen (b :: rest)) z ++ acc ++ (b :: rest).flatten := by
          rw [Nat.sub_sub, hb]
          simp [List.append_assoc]

lemma convSame_length (a v : List ℚ) (hv : 1 ≤ v.length) (hva : v.length ≤ a.length) :
    (convSame a v).length = a.length := by
  unfold convSame convFull
  rw [List.length_take, List.length_drop, List.length_map, List.length_range,
    Nat.min_eq_right hva, Nat.max_eq_left hva]
  omega

lemma displaySeries_length (col : List ℚ) (avg : Nat) (h : avg ≤ col.length) :
    (displaySeries col avg).length = col.length := by
  unfold displaySeries
  split_ifs with h1
  · rw [npRollPos_length, List.length_map,
      convSame_length _ _ (by simpa using Nat.one_le_of_lt h1) (by simpa using h)]
  · rfl

lemma onkeypress_plotdata (s : OscState) (k : String) :
    (onkeypress s k).plotdata = s.plotdata := by
  unfold onkeypress
  by_cases h1 : k = "p" <;> by_cases h2 : k = "alt+-" <;> by_cases h3 : k = "alt++" <;>
    by_cases h4 : k = "-" <;> by_cases h5 : k = "+" <;> by_cases h6 : k = "a" <;>
    simp [h1, h2, h3, h4, h5, h6, set_window, set_yzoom]

lemma onkeypress_lines (s : OscState) (k : String) :
    (onkeypress s k).lines = s.lines := by
  unfold onkeypress
  by_cases h1 : k = "p" <;> by_cases h2 : k = "alt+-" <;> by_cases h3 : k = "alt++" <;>
    by_cases h4 : k = "-" <;> by_cases h5 : k = "+" <;> by_cases h6 : k = "a" <;>
    simp [h1, h2, h3, h4, h5, h6, set_window, set_yzoom]

lemma onkeypress_window (s : OscState) (k : String) :
    (onkeypress s k).window =
      if k = "-" then wstep_minus s.window
      else if k = "+" then wstep_plus s.window
      else s.window := by
  unfold onkeypress wstep_minus wstep_plus
  by_cases h1 : k = "p" <;> by_cases h2 : k = "alt+-" <;> by_cases h3 : k = "alt++" <;>
    by_cases h4 : k = "-" <;> by_cases h5 : k = "+" <;> by_cases h6 : k = "a" <;>
    simp [h1, h2, h3, h4, h5, h6, set_window, set_yzoom]

lemma onkeypress_yzoom (s : OscState) (k : String) :
    (onkeypress s k).yzoom =
      if k = "alt+-" then max (min (s.yzoom / 2) max_yzoom) min_yzoom
      else if k = "alt++" then max (min (s.yzoom * 2) max_yzoom) min_yzoom
      else s.yzoom := by
  unfold onkeypress
  by_cases h1 : k = "p" <;> by_cases h2 : k = "alt+-" <;> by_cases h3 : k = "alt++" <;>
    by_cases h4 : k = "-" <;> by_cases h5 : k = "+" <;> by_cases h6 : k = "a" <;>
    simp [h1, h2, h3, h4, h5, h6, set_window, set_yzoom]

lemma onkeypress_avg (s : OscState) (k : String) :
    (onkeypress s k).avg =
      if k = "a" then (if s.avg = 1 then 3 else if s.avg = 3 then 5 else 1)
      else s.avg := by
  unfold onkeypress
  by_cases h1 : k = "p" <;> by_cases h2 : k = "alt+-" <;> by_cases h3 : k = "alt++" <;>
    by_cases h4 : k = "-" <;> by_cases h5 : k = "+" <;> by_cases h6 : k = "a" <;>
    simp [h1, h2, h3, h4, h5, h6, set_window, set_yzoom]

lemma onkeypress_xlim (s : OscState) (k : String) (h : s.ax_xlim = (-s.window, 0)) :
    (onkeypress s k).ax_xlim = (-(onkeypress s k).window, 0) := by
  unfold onkeypress
  by_cases h1 : k = "p" <;> by_cases h2 : k = "alt+-" <;> by_cases h3 : k = "alt++" <;>
    by_cases h4 : k = "-" <;> by_cases h5 : k = "+" <;> by_cases h6 : k = "a" <;>
    simp [h1, h2, h3, h4, h5, h6, set_window, set_yzoom, h]

lemma onkeypress_ylim (s : OscState) (k : String)
    (h : s.ax_ylim = (-(1 / s.yzoom), 1 / s.yzoom)) :
    (onkeypress s k).ax_ylim = (-(1 / (onkeypress s k).yzoom), 1 / (onkeypress s k).yzoom) := by
  unfold onkeypress
  by_cases h1 : k = "p" <;> by_cases h2 : k = "alt+-" <;> by_cases h3 : k = "alt++" <;>
    by_cases h4 : k = "-" <;> by_cases h5 : k = "+" <;> by_cases h6 : k = "a" <;>
    simp [h1, h2, h3, h4, h5, h6, set_window, set_yzoom, h]

lemma update_plot_fixed (s : OscState) (f : Nat) (t : ℚ) :
    ((update_plot s f t).1).window = s.window ∧
    ((update_plot s f t).1).yzoom = s.yzoom ∧
    ((update_plot s f t).1).ax_xlim = s.ax_xlim ∧
    ((update_plot s f t).1).ax_ylim = s.ax_ylim ∧
    ((update_plot s f t).1).paused = s.paused ∧
    ((update_plot s f t).1).avg = s.avg ∧
    ((update_plot s f t).1).nch = s.nch := by
  unfold update_plot
  cases h : (runDrain s.q s.plotdata).2.2 <;> simp [h] <;> split_ifs <;> simp

lemma update_plot_plotdata (s : OscState) (f : Nat) (t : ℚ) :
    ((update_plot s f t).1).plotdata = (runDrain s.q s.plotdata).2.1 := by
  unfold update_plot
  cases h : (runDrain s.q s.plotdata).2.2 <;> simp [h] <;> split_ifs <;> simp

lemma update_plot_lines_cases (s : OscState) (f : Nat) (t : ℚ) :
    ((update_plot s f t).1).lines = s.lines ∨
    ((update_plot s f t).1).lines =
      (List.range s.nch).map
        (fun c => displaySeries (column c (runDrain s.q s.plotdata).2.1) s.avg) := by
  unfold update_plot
  cases h : (runDrain s.q s.plotdata).2.2 <;> simp [h]
  split_ifs <;> simp

lemma update_plot_ok (s : OscState) (f : Nat) (t : ℚ)
    (h : ∀ b ∈ s.q, b ≠ [] ∧ b.length ≤ s.plotdata.length) :
    update_plot s f t =
      (if s.paused then
        ({ s with
            q := []
            plotdata := drainPure s.plotdata s.q }, none)
       else
        ({ s with
            q := []
            plotdata := drainPure s.plotdata s.q
            lines := (List.range s.nch).map
              (fun c => displaySeries (column c (drainPure s.plotdata s.q)) s.avg)
            status := some (f, t, s.window, s.avg) }, none)) := by
  unfold update_plot
  rw [runDrain_eq s.q s.plotdata h]

lemma Inv_init (w : ℚ) (nch : Nat) : OscInv (init w nch) := by
  refine ⟨by simp [init, set_window, set_yzoom], ?_,
    by simp [init, set_window, set_yzoom],
    by simp [init, set_window, set_yzoom],
    by simp [init, set_window, set_yzoom, min_yzoom],
    by simp [init, set_window, set_yzoom, min_yzoom, max_yzoom],
    by simp [init, set_window, set_yzoom]⟩
  intro l hl
  simp only [init, set_window, set_yzoom, setup_plot_lines] at hl
  obtain ⟨c, _, rfl⟩ := List.mem_map.mp hl
  simp [column]

lemma clampY_bounds (y : ℚ) :
    min_yzoom ≤ max (min y max_yzoom) min_yzoom ∧
    max (min y max_yzoom) min_yzoom ≤ max_yzoom := by
  constructor
  · exact le_max_right _ _
  · exact max_le (le_trans (min_le_right _ _) le_rfl) (by norm_num [min_yzoom, max_yzoom])

lemma Inv_key (s : OscState) (k : String) (h : OscInv s) : OscInv (onkeypress s k) := by
  obtain ⟨h1, h2, h3, h4, h5, h6, h7⟩ := h
  refine ⟨?_, ?_, ?_, ?_, ?_, ?_, ?_⟩
  · rw [onkeypress_plotdata]; exact h1
  · rw [onkeypress_lines]; exact h2
  · exact onkeypress_xlim s k h3
  · exact onkeypress_ylim s k h4
  · rw [onkeypress_yzoom]
    split_ifs with hc1 hc2
    · exact (clampY_bounds _).1
    · exact (clampY_bounds _).1
    · exact h5
  · rw [onkeypress_yzoom]
    split_ifs with hc1 hc2
    · exact (clampY_bounds _).2
    · exact (clampY_bounds _).2
    · exact h6
  · rw [onkeypress_avg]
    split_ifs with hc1 hc2 hc3
    · simp
    · simp
    · simp
    · exact h7

lemma Inv_tick (s : OscState) (f : Nat) (t : ℚ) (h : OscInv s) :
    OscInv ((update_plot s f t).1) := by
  obtain ⟨h1, h2, h3, h4, h5, h6, h7⟩ := h
  obtain ⟨f1, f2, f3, f4, f5, f6, f7⟩ := update_plot_fixed s f t
  have hpd : ((update_plot s f t).1).plotdata.length = max_window := by
    rw [update_plot_plotdata, runDrain_buf_length]; exact h1
  refine ⟨hpd, ?_, ?_, ?_, ?_, ?_, ?_⟩
  · rcases update_plot_lines_cases s f t with hl | hl
    · rw [hl]; exact h2
    · rw [hl]
      intro l hmem
      obtain ⟨c, _, rfl⟩ := List.mem_map.mp hmem
      have hcol : (column c (runDrain s.q s.plotdata).2.1).length = max_window := by
        simp [column, runDrain_buf_length, h1]
      rw [displaySeries_length _ _ (by rw [hcol]; rcases h7 with h | h | h <;>
        simp [h, max_window])]
      exact hcol
  · rw [f3, f1]; exact h3
  · rw [f4, f2]; exact h4
  · rw [f2]; exact h5
  · rw [f2]; exact h6
  · rw [f6]; exact h7

lemma Inv_put (s : OscState) (b : List (List ℚ)) (h : OscInv s) : OscInv (put_data s b) := by
  obtain ⟨h1, h2, h3, h4, h5, h6, h7⟩ := h
  exact ⟨h1, h2, h3, h4, h5, h6, h7⟩

lemma reachable_inv {s : OscState} (h : Reachable s) : OscInv s := by
  induction h with
  | init_state w nch => exact Inv_init w nch
  | key s k _ ih => exact Inv_key s k ih
  | tick s f t _ ih => exact Inv_tick s f t ih
  | put s b _ ih => exact Inv_put s b ih

/-- C7: pressing the `a` key maps `avg` 1 to 3, 3 to 5, and any other value
to 1, so after at most one press `avg` is in `{1, 3, 5}`; repeated presses
cycle through 1 → 3 → 5 → 1. -/
theorem C7_avg_cycle (s : OscState) :
    (s.avg = 1 → (onkeypress s "a").avg = 3) ∧
    (s.avg = 3 → (onkeypress s "a").avg = 5) ∧
    (s.avg ≠ 1 → s.avg ≠ 3 → (onkeypress s "a").avg = 1) ∧
    ((onkeypress s "a").avg = 1 ∨ (onkeypress s "a").avg = 3 ∨
      (onkeypress s "a").avg = 5) := by
  have h := onkeypress_avg s "a"
  rw [if_pos rfl] at h
  refine ⟨fun h1 => by rw [h, if_pos h1],
    fun h3 => by rw [h, if_neg (by omega), if_pos h3],
    fun hn1 hn3 => by rw [h, if_neg hn1, if_neg hn3],
    ?_⟩
  rw [h]
  split_ifs <;> simp

theorem C7_witness :
    (init 16 1).avg = 1 ∧ (onkeypress (init 16 1) "a").avg = 3 :=
  ⟨rfl, (C7_avg_cycle (init 16 1)).1 rfl⟩

/-- C8: a block with more rows than the buffer capacity makes the push fail
with the numpy broadcast-shape error instead of producing a buffer. -/
theorem C8_oversized_block {α : Type} (buf block : List α)
    (hbuf : buf.length = max_window) (hblock : max_window < block.length) :
    pushE buf block = .error "could not broadcast input array" := by
  have hroll := npRollNeg_length buf block.length
  unfold pushE writeTail tailStart
  rw [if_neg (by omega)]

theorem C8_witness :
    (List.replicate max_window ([0] : List ℚ)).length = max_window ∧
    max_window < (List.replicate (max_window + 1) ([0] : List ℚ)).length ∧
    pushE (List.replicate max_window ([0] : List ℚ))
        (List.replicate (max_window + 1) ([0] : List ℚ))
      = .error "could not broadcast input array" :=
  ⟨by simp, by simp,
    C8_oversized_block _ _ (by simp) (by simp)⟩

/-- C10 counterexample: under the program's IEEE-754 binary64 arithmetic the
round trip is not exact.  With samplerate 49, timebase `s` and input 1,
converting samples to time gives the double nearest 1/49, and converting
back gives 9007199254740991 / 2^53 = 0.9999999999999999..., not 1. -/
theorem C10_counterexample :
    (0 : ℚ) < 49 ∧
    (samples_time_conversion_fp 49 "s").map (fun fg => fg.2 (fg.1 1))
      = .ok ((9007199254740991 : ℚ) * 2 ^ (-53 : ℤ)) ∧
    (9007199254740991 : ℚ) * 2 ^ (-53 : ℤ) ≠ 1 := by
  have e1 : fp64Round (1 : ℚ) = 1 := by
    have h := fp64Round_eval 1 0 4503599627370496 (by norm_num)
      (Int_log2_eq (by norm_num) (by norm_num) (by norm_num))
      (Int.floor_eq_iff.mpr (by norm_num)) (by norm_num)
    rw [h]; norm_num
  have e2 : fp64Round ((1 : ℚ) / 49) = (5882252574524729 : ℚ) * 2 ^ ((-58 : ℤ)) := by
    exact fp64Round_eval (1/49) (-6) 5882252574524729 (by norm_num)
      (Int_log2_eq (by norm_num) (by norm_num) (by norm_num))
      (Int.floor_eq_iff.mpr (by norm_num)) (by norm_num)
  have e3 : fp64Round ((5882252574524729 : ℚ) * 2 ^ ((-58 : ℤ)) * 49)
      = (9007199254740991 : ℚ) * 2 ^ ((-53 : ℤ)) := by
    have h := fp64Round_eval ((5882252574524729 : ℚ) * 2 ^ ((-58 : ℤ)) * 49) (-1)
      9007199254740991 (by norm_num)
      (Int_log2_eq (by norm_num) (by norm_num) (by norm_num))
      (Int.floor_eq_iff.mpr (by norm_num)) (by norm_num)
    rw [h]
    norm_num
  have e4 : fp64Round ((9007199254740991 : ℚ) * 2 ^ ((-53 : ℤ)) / 1)
      = (9007199254740991 : ℚ) * 2 ^ ((-53 : ℤ)) := by
    have h := fp64Round_eval ((9007199254740991 : ℚ) * 2 ^ ((-53 : ℤ)) / 1) (-1)
      9007199254740991 (by norm_num)
      (Int_log2_eq (by norm_num) (by norm_num) (by norm_num))
      (Int.floor_eq_iff.mpr (by norm_num)) (by norm_num)
    rw [h]
    norm_num
  refine ⟨by norm_num, ?_, by norm_num⟩
  show Except.map _ (Except.ok _) = _
  simp only [Except.map]
  show Except.ok (fp64Div (fp64Mul (fp64Div (fp64Mul 1 1) 49) 49) 1) = _
  rw [show fp64Mul (1 : ℚ) 1 = fp64Round 1 from by norm_num [fp64Mul]]
  rw [e1]
  rw [show fp64Div (1 : ℚ) 49 = fp64Round (1/49) from rfl, e2]
  rw [show fp64Mul ((5882252574524729 : ℚ) * 2 ^ ((-58 : ℤ))) 49
      = fp64Round ((5882252574524729 : ℚ) * 2 ^ ((-58 : ℤ)) * 49) from rfl, e3]
  rw [show fp64Div ((9007199254740991 : ℚ) * 2 ^ ((-53 : ℤ))) 1
      = fp64Round ((9007199254740991 : ℚ) * 2 ^ ((-53 : ℤ)) / 1) from rfl, e4]

/-- C10 amended: the two returned functions are exact mutual inverses of one
another over the exact-rational idealization of the float arithmetic, for
every positive samplerate and valid timebase; under the program's binary64
doubles the round trip only approximates the identity (see the
counterexample above). -/
theorem C10_conversion_inverse (samplerate : ℚ) (timebase : String)
    (hr : 0 < samplerate) (ht : timebase = "ms" ∨ timebase = "s") :
    ∃ f g, samples_time_conversion samplerate timebase = .ok (f, g) ∧
      ∀ x : ℚ, f (g x) = x ∧ g (f x) = x := by
  have hne : samplerate ≠ 0 := ne_of_gt hr
  rcases ht with h | h <;> subst h
  · refine ⟨_, _, rfl, fun x => ⟨?_, ?_⟩⟩
    · show x * samplerate / 1000 * 1000 / samplerate = x
      field_simp
    · show x * 1000 / samplerate * samplerate / 1000 = x
      field_simp
  · refine ⟨_, _, rfl, fun x => ⟨?_, ?_⟩⟩
    · show x * samplerate / 1 * 1 / samplerate = x
      field_simp
    · show x * 1 / samplerate * samplerate / 1 = x
      field_simp

theorem C10_witness :
    (0 : ℚ) < 2 ∧ (("ms" : String) = "ms" ∨ ("ms" : String) = "s") ∧
    ∃ f g, samples_time_conversion 2 "ms" = .ok (f, g) ∧
      ∀ x : ℚ, f (g x) = x ∧ g (f x) = x :=
  ⟨by norm_num, Or.inl rfl, C10_conversion_inverse 2 "ms" (by norm_num) (Or.inl rfl)⟩

lemma onkeypress_plus_window (s : OscState) :
    (onkeypress s "+").window = wstep_plus s.window := by
  rw [onkeypress_window]
  simp

lemma onkeypress_minus_window (s : OscState) :
    (onkeypress s "-").window = wstep_minus s.window := by
  rw [onkeypress_window]
  simp

lemma iterate_plus_window :
    ∀ (n : Nat) (s : OscState),
      ((fun s => onkeypress s "+")^[n] s).window = wstep_plus^[n] s.window
  | 0, s => rfl
  | n + 1, s => by
    rw [Function.iterate_succ_apply, Function.iterate_succ_apply]
    rw [iterate_plus_window n (onkeypress s "+"), onkeypress_plus_window]

lemma iterate_minus_window :
    ∀ (n : Nat) (s : OscState),
      ((fun s => onkeypress s "-")^[n] s).window = wstep_minus^[n] s.window
  | 0, s => rfl
  | n + 1, s => by
    rw [Function.iterate_succ_apply, Function.iterate_succ_apply]
    rw [iterate_minus_window n (onkeypress s "-"), onkeypress_minus_window]

lemma wstep_plus_iter_1024 : wstep_plus^[6] 1024 = 16 := by
  show wstep_plus (wstep_plus (wstep_plus (wstep_plus (wstep_plus (wstep_plus 1024))))) = 16
  norm_num [wstep_plus, max_window, min_window, min_def, max_def]

lemma wstep_plus_fixed : wstep_plus 16 = 16 := by
  norm_num [wstep_plus, max_window, min_window, min_def, max_def]

lemma wstep_minus_iter_16 : wstep_minus^[12] 16 = 65536 := by
  show wstep_minus (wstep_minus (wstep_minus (wstep_minus (wstep_minus (wstep_minus
    (wstep_minus (wstep_minus (wstep_minus (wstep_minus (wstep_minus (wstep_minus
      16))))))))))) = 65536
  norm_num [wstep_minus, max_window, min_window, min_def, max_def]

lemma wstep_minus_fixed : wstep_minus 65536 = 65536 := by
  norm_num [wstep_minus, max_window, min_window, min_def, max_def]

/-- C9: a `+` press halves `window` and a `-` press doubles it, both clamped
into `[16, 65536]`; from `window = 1024`, twenty `+` presses end at 16 and
thirty further `-` presses end at 65536. -/
theorem C9_window_scenario :
    (∀ s : OscState,
      (onkeypress s "+").window = max (min (s.window / 2) (max_window : ℚ)) (min_window : ℚ) ∧
      (onkeypress s "-").window = max (min (s.window * 2) (max_window : ℚ)) (min_window : ℚ)) ∧
    ((fun s => onkeypress s "+")^[20] (init 1024 1)).window = 16 ∧
    ((fun s => onkeypress s "-")^[30]
      ((fun s => onkeypress s "+")^[20] (init 1024 1))).window = 65536 := by
  have hwin : (init 1024 1).window = 1024 := by
    simp [init, set_window, set_yzoom]
  have h20 : ((fun s => onkeypress s "+")^[20] (init 1024 1)).window = 16 := by
    rw [iterate_plus_window, hwin]
    rw [show wstep_plus^[20] 1024 = wstep_plus^[14] (wstep_plus^[6] 1024) from
      (Function.iterate_add_apply wstep_plus 14 6 1024).symm]
    rw [wstep_plus_iter_1024]
    exact Function.iterate_fixed wstep_plus_fixed 14
  refine ⟨fun s => ⟨?_, ?_⟩, h20, ?_⟩
  · rw [onkeypress_plus_window]; rfl
  · rw [onkeypress_minus_window]; rfl
  · rw [iterate_minus_window, h20]
    rw [show wstep_minus^[30] 16 = wstep_minus^[18] (wstep_minus^[12] 16) from
      (Function.iterate_add_apply wstep_minus 18 12 16).symm]
    rw [wstep_minus_iter_16]
    exact Function.iterate_fixed wstep_minus_fixed 18

lemma clampW_bounds (w : ℚ) :
    (min_window : ℚ) ≤ max (min w (max_window : ℚ)) (min_window : ℚ) ∧
    max (min w (max_window : ℚ)) (min_window : ℚ) ≤ (max_window : ℚ) :=
  ⟨le_max_right _ _,
    max_le (le_trans (min_le_right _ _) le_rfl) (by norm_num [min_window, max_window])⟩

/-- C2 counterexample: construction does not clamp the configured window:
`Oscilloscope(stream, window=4)` is a reachable state whose `window` is 4,
below `min_window = 16` (`__init__` calls `set_window()` with no argument,
which skips the clamping branch). -/
theorem C2_counterexample :
    Reachable (init 4 1) ∧ (init 4 1).window = 4 ∧ (init 4 1).window < (min_window : ℚ) := by
  refine ⟨Reachable.init_state 4 1, ?_, ?_⟩ <;>
    simp [init, set_window, set_yzoom, min_window] <;> norm_num

/-- C2 amended: `yzoom` is clamped into `[1, 8]` in every reachable state;
`window`, unclamped at construction, enters `[16, 65536]` on any `+` or `-`
press and, once inside, stays inside after every further key press. -/
theorem C2_clamp_invariants :
    (∀ s : OscState, Reachable s → min_yzoom ≤ s.yzoom ∧ s.yzoom ≤ max_yzoom) ∧
    (∀ (s : OscState) (k : String), k = "+" ∨ k = "-" →
      (min_window : ℚ) ≤ (onkeypress s k).window ∧
      (onkeypress s k).window ≤ (max_window : ℚ)) ∧
    (∀ (s : OscState) (k : String),
      (min_window : ℚ) ≤ s.window → s.window ≤ (max_window : ℚ) →
      (min_window : ℚ) ≤ (onkeypress s k).window ∧
      (onkeypress s k).window ≤ (max_window : ℚ)) := by
  refine ⟨?_, ?_, ?_⟩
  · intro s h
    obtain ⟨_, _, _, _, h5, h6, _⟩ := reachable_inv h
    exact ⟨h5, h6⟩
  · intro s k hk
    rw [onkeypress_window]
    rcases hk with h | h <;> subst h
    · rw [if_neg (by simp), if_pos rfl]
      exact clampW_bounds _
    · rw [if_pos rfl]
      exact clampW_bounds _
  · intro s k h1 h2
    rw [onkeypress_window]
    split_ifs
    · exact ⟨(clampW_bounds _).1, (clampW_bounds _).2⟩
    · exact ⟨(clampW_bounds _).1, (clampW_bounds _).2⟩
    · exact ⟨h1, h2⟩

theorem C2_witness :
    Reachable (init 16 1) ∧
    (min_yzoom ≤ (init 16 1).yzoom ∧ (init 16 1).yzoom ≤ max_yzoom) :=
  ⟨Reachable.init_state 16 1, C2_clamp_invariants.1 _ (Reachable.init_state 16 1)⟩

/-- C6 counterexample: the series handed to each line always has
`max_window = 65536` entries, not `window` entries — with the default
`window = 1024`, after an (empty-queue) tick the single line's y-data still
has 65536 entries while `window` is 1024. -/
theorem C6_counterexample :
    (init 1024 1).window = 1024 ∧
    ((update_plot (init 1024 1) 0 0).1.lines.getD 0 []).length = 65536 ∧
    ((65536 : ℚ) ≠ 1024) := by
  have hq : ∀ b ∈ (init 1024 1).q, b ≠ [] ∧ b.length ≤ (init 1024 1).plotdata.length := by
    simp [init, set_window, set_yzoom]
  refine ⟨by simp [init, set_window, set_yzoom], ?_, by norm_num⟩
  rw [update_plot_ok _ 0 0 hq,
    if_neg (by simp [init, set_window, set_yzoom])]
  simp [init, set_window, set_yzoom, drainPure, displaySeries, column,
    setup_plot_lines]
  rfl

/-- C6 amended: in every reachable state each line's y-data has
`max_window = 65536` entries (the visible window is realized through the
x-axis limits, not by slicing), the x-axis range is `[-window, 0]` and the
y-axis range is `[-1/yzoom, 1/yzoom]`. -/
theorem C6_render_dimensions (s : OscState) (h : Reachable s) :
    (∀ l ∈ s.lines, l.length = max_window) ∧
    s.ax_xlim = (-s.window, 0) ∧
    s.ax_ylim = (-(1 / s.yzoom), 1 / s.yzoom) := by
  obtain ⟨_, h2, h3, h4, _⟩ := reachable_inv h
  exact ⟨h2, h3, h4⟩

theorem C6_witness :
    Reachable (init 16 1) ∧
    ((∀ l ∈ (init 16 1).lines, l.length = max_window) ∧
      (init 16 1).ax_xlim = (-(init 16 1).window, 0) ∧
      (init 16 1).ax_ylim = (-(1 / (init 16 1).yzoom), 1 / (init 16 1).yzoom)) :=
  ⟨Reachable.init_state 16 1, C6_render_dimensions _ (Reachable.init_state 16 1)⟩

lemma replicate_max_window_ne_nil {α : Type} (x : α) :
    List.replicate max_window x ≠ [] := by
  intro h
  have := congrArg List.length h
  rw [List.length_replicate, List.length_nil] at this
  norm_num [max_window] at this

/-- C3: when paused, a tick still drains the whole queue into `plotdata`,
but the lines' y-data and the status text are untouched, as are the view
parameters. -/
theorem C3_paused_tick (s : OscState) (f : Nat) (t : ℚ)
    (hp : s.paused = true)
    (hq : ∀ b ∈ s.q, b ≠ [] ∧ b.length ≤ s.plotdata.length) :
    (update_plot s f t).2 = none ∧
    (update_plot s f t).1.q = [] ∧
    (update_plot s f t).1.plotdata = drainPure s.plotdata s.q ∧
    (update_plot s f t).1.lines = s.lines ∧
    (update_plot s f t).1.status = s.status ∧
    (update_plot s f t).1.window = s.window ∧
    (update_plot s f t).1.yzoom = s.yzoom ∧
    (update_plot s f t).1.avg = s.avg ∧
    (update_plot s f t).1.paused = s.paused := by
  rw [update_plot_ok s f t hq, if_pos hp]
  simp

theorem C3_witness :
    pausedExample.paused = true ∧
    (∀ b ∈ pausedExample.q, b ≠ [] ∧ b.length ≤ pausedExample.plotdata.length) ∧
    ((update_plot pausedExample 0 0).2 = none ∧
     (update_plot pausedExample 0 0).1.q = [] ∧
     (update_plot pausedExample 0 0).1.plotdata
        = drainPure pausedExample.plotdata pausedExample.q ∧
     (update_plot pausedExample 0 0).1.lines = pausedExample.lines ∧
     (update_plot pausedExample 0 0).1.status = pausedExample.status ∧
     (update_plot pausedExample 0 0).1.window = pausedExample.window ∧
     (update_plot pausedExample 0 0).1.yzoom = pausedExample.yzoom ∧
     (update_plot pausedExample 0 0).1.avg = pausedExample.avg ∧
     (update_plot pausedExample 0 0).1.paused = pausedExample.paused) := by
  have hq : ∀ b ∈ pausedExample.q, b ≠ [] ∧ b.length ≤ pausedExample.plotdata.length := by
    intro b hb
    simp only [pausedExample] at hb
    simp only [List.mem_singleton] at hb
    subst hb
    refine ⟨by simp, ?_⟩
    have hpd : pausedExample.plotdata.length = max_window := by
      simp [pausedExample, init, set_window, set_yzoom]
    rw [hpd]
    norm_num [max_window]
  exact ⟨rfl, hq, C3_paused_tick pausedExample 0 0 rfl hq⟩

/-- C5: on a successful unpaused tick, each line's y-data is the raw column
of the drained buffer when `avg = 1`, and otherwise the same-mode
convolution with a length-`avg` all-ones kernel, divided by `avg` and
cyclically rolled forward by `avg` positions. -/
theorem C5_display_series (s : OscState) (f : Nat) (t : ℚ)
    (hp : s.paused = false)
    (hq : ∀ b ∈ s.q, b ≠ [] ∧ b.length ≤ s.plotdata.length) :
    (update_plot s f t).2 = none ∧
    (update_plot s f t).1.lines =
      (List.range s.nch).map (fun c =>
        if 1 < s.avg then
          npRollPos ((convSame (column c (update_plot s f t).1.plotdata)
            (List.replicate s.avg 1)).map (fun x => x / (s.avg : ℚ))) s.avg
        else column c (update_plot s f t).1.plotdata) := by
  rw [update_plot_ok s f t hq, if_neg (by simp [hp])]
  refine ⟨rfl, ?_⟩
  simp [displaySeries]

theorem C5_witness :
    (init 16 1).paused = false ∧
    (∀ b ∈ (init 16 1).q, b ≠ [] ∧ b.length ≤ (init 16 1).plotdata.length) ∧
    ((update_plot (init 16 1) 0 0).2 = none ∧
     (update_plot (init 16 1) 0 0).1.lines =
      (List.range (init 16 1).nch).map (fun c =>
        if 1 < (init 16 1).avg then
          npRollPos ((convSame (column c (update_plot (init 16 1) 0 0).1.plotdata)
            (List.replicate (init 16 1).avg 1)).map
              (fun x => x / ((init 16 1).avg : ℚ))) (init 16 1).avg
        else column c (update_plot (init 16 1) 0 0).1.plotdata)) :=
  ⟨rfl, by simp [init, set_window, set_yzoom],
    C5_display_series (init 16 1) 0 0 rfl (by simp [init, set_window, set_yzoom])⟩

/-- C4 counterexample: with an empty first block the claim fails — pushing
the empty block raises (Python's `buf[-0:]` is the whole buffer, so the
assignment is a broadcast-shape error), while pushing the concatenation
`[] + B = B` succeeds, so the two results differ. -/
theorem C4_counterexample :
    ¬ ((pushE (List.replicate max_window ([0] : List ℚ)) []).bind
        (fun b => pushE b [[1]])
      = pushE (List.replicate max_window ([0] : List ℚ)) ([] ++ [[1]])) := by
  intro hcontra
  have h1 : pushE (List.replicate max_window ([0] : List ℚ)) ([] : List (List ℚ))
      = .error "could not broadcast input array" := by
    unfold pushE
    rw [show ([] : List (List ℚ)).length = 0 from rfl, npRollNeg_zero]
    exact writeTail_nil _ (replicate_max_window_ne_nil _)
  have h2 : pushE (List.replicate max_window ([0] : List ℚ)) [[1]]
      = .ok (pushPure (List.replicate max_window ([0] : List ℚ)) [[1]]) :=
    pushE_eq _ _ (by simp) (by rw [List.length_replicate]; norm_num [max_window])
  rw [List.nil_append, h1, h2] at hcontra
  simp [Except.bind] at hcontra

/-- C4 amended: for nonempty blocks `A` and `B` whose lengths sum to at most
the capacity, pushing `A` then `B` equals pushing `A ++ B`. -/
theorem C4_push_assoc {α : Type} (buf A B : List α)
    (hbuf : buf.length = max_window) (hA : A ≠ []) (hB : B ≠ [])
    (hlen : A.length + B.length ≤ max_window) :
    (pushE buf A).bind (fun b => pushE b B) = pushE buf (A ++ B) := by
  have hA0 : 0 < A.length := List.length_pos.mpr hA
  have hB0 : 0 < B.length := List.length_pos.mpr hB
  rw [pushE_eq buf A hA (by omega)]
  have hPA : (pushPure buf A).length = buf.length := pushPure_length _ _ (by omega)
  show pushE (pushPure buf A) B = pushE buf (A ++ B)
  rw [pushE_eq _ B hB (by rw [hPA]; omega)]
  rw [pushE_eq buf (A ++ B) (by simp [hA]) (by rw [List.length_append]; omega)]
  congr 1
  show (pushPure buf A).drop B.length ++ B = buf.drop (A ++ B).length ++ (A ++ B)
  unfold pushPure
  rw [List.drop_append_of_le_length (by rw [List.length_drop]; omega)]
  rw [List.drop_drop, List.length_append, List.append_assoc]

theorem C4_witness :
    (List.replicate max_window ([0] : List ℚ)).length = max_window ∧
    ([[1]] : List (List ℚ)) ≠ [] ∧ ([[2]] : List (List ℚ)) ≠ [] ∧
    ([[1]] : List (List ℚ)).length + ([[2]] : List (List ℚ)).length ≤ max_window ∧
    (pushE (List.replicate max_window ([0] : List ℚ)) [[1]]).bind
        (fun b => pushE b [[2]])
      = pushE (List.replicate max_window ([0] : List ℚ)) ([[1]] ++ [[2]]) :=
  ⟨by simp, by simp, by simp, by norm_num [max_window],
    C4_push_assoc _ _ _ (by simp) (by simp) (by simp) (by norm_num [max_window])⟩

lemma update_plot_first_block_empty (s : OscState) (f : Nat) (t : ℚ)
    (rest : List (List (List ℚ)))
    (hq : s.q = [] :: rest) (hbuf : s.plotdata ≠ []) :
    (update_plot s f t).2 = some "could not broadcast input array" ∧
    (update_plot s f t).1.q = rest := by
  have hrun : runDrain s.q s.plotdata
      = (rest, s.plotdata, some "could not broadcast input array") := by
    rw [hq, runDrain]
    simp only [List.length_nil, npRollNeg_zero]
    rw [writeTail_nil _ hbuf]
  unfold update_plot
  rw [hrun]
  exact ⟨rfl, rfl⟩

theorem C1_counterexample :
    totalLen emptyBlockExample.q ≤ max_window ∧
    (update_plot emptyBlockExample 0 0).2 ≠ none ∧
    (update_plot emptyBlockExample 0 0).1.q ≠ [] := by
  have hlen : emptyBlockExample.plotdata.length = max_window := by
    simp [emptyBlockExample, init, set_window, set_yzoom]
  have hne2 : emptyBlockExample.plotdata ≠ [] := by
    intro h
    rw [h, List.length_nil] at hlen
    norm_num [max_window] at hlen
  obtain ⟨herr, hq⟩ :=
    update_plot_first_block_empty emptyBlockExample 0 0 [[[1]]] rfl hne2
  refine ⟨?_, ?_, ?_⟩
  · show totalLen [[], [[1]]] ≤ max_window
    norm_num [totalLen, max_window]
  · rw [herr]
    simp
  · rw [hq]
    simp

/-- C1 amended: for a queue of nonempty blocks whose total length is at most
the capacity, one tick from a freshly constructed (all-zero) buffer raises
nothing, leaves the queue empty, and the last `totalLen` rows of the buffer
are the concatenation of the blocks in enqueue order. -/
theorem C1_drain_concat (w : ℚ) (nch : Nat) (blocks : List (List (List ℚ)))
    (f : Nat) (t : ℚ)
    (hne : ∀ b ∈ blocks, b ≠ []) (htot : totalLen blocks ≤ max_window) :
    (update_plot { init w nch with q := blocks } f t).2 = none ∧
    (update_plot { init w nch with q := blocks } f t).1.q = [] ∧
    (update_plot { init w nch with q := blocks } f t).1.plotdata.drop
        (max_window - totalLen blocks)
      = blocks.flatten := by
  have hq2 : ∀ b ∈ ({ init w nch with q := blocks } : OscState).q,
      b ≠ [] ∧ b.length ≤ ({ init w nch with q := blocks } : OscState).plotdata.length := by
    intro b hb
    refine ⟨hne b hb, ?_⟩
    have hpd : ({ init w nch with q := blocks } : OscState).plotdata
        = List.replicate max_window (List.replicate nch (0 : ℚ)) := by
      simp [init, set_window, set_yzoom]
    rw [hpd, List.length_replicate]
    exact le_trans (mem_le_totalLen b blocks hb) htot
  rw [update_plot_ok _ f t hq2, if_neg (by simp [init, set_window, set_yzoom])]
  refine ⟨rfl, rfl, ?_⟩
  show (drainPure (List.replicate max_window (List.replicate nch (0 : ℚ))) blocks).drop
      (max_window - totalLen blocks) = blocks.flatten
  have hdp := drainPure_replicate (List.replicate nch (0 : ℚ)) blocks max_window [] htot
  rw [List.append_nil, List.append_nil] at hdp
  rw [hdp]
  exact List.drop_left' (by rw [List.length_replicate])

theorem C1_witness :
    (∀ b ∈ ([[[1]], [[2], [3]]] : List (List (List ℚ))), b ≠ []) ∧
    totalLen ([[[1]], [[2], [3]]] : List (List (List ℚ))) ≤ max_window ∧
    ((update_plot { init 16 1 with q := [[[1]], [[2], [3]]] } 0 0).2 = none ∧
     (update_plot { init 16 1 with q := [[[1]], [[2], [3]]] } 0 0).1.q = [] ∧
     (update_plot { init 16 1 with q := [[[1]], [[2], [3]]] } 0 0).1.plotdata.drop
        (max_window - totalLen ([[[1]], [[2], [3]]] : List (List (List ℚ))))
       = ([[[1]], [[2], [3]]] : List (List (List ℚ))).flatten) :=
  ⟨by simp, by norm_num [totalLen, max_window],
    C1_drain_concat 16 1 _ 0 0 (by simp) (by norm_num [totalLen, max_window])⟩
